import Mathlib

/-!
Verification of the claudian conversation-log core.

Part A models the BranchResolver (`filterActiveBranch`) and the assistant-turn
merge of the MessageAssembler.  Their implementations live in a module that is
not part of this source snapshot (only their unit tests are), so they are
modelled from the spec (sections 4.3 and 4.4) and checked against the
behaviour pinned down by the unit tests.

Part B embeds the `SubagentManager` (async task orchestration) directly from
its TypeScript source, including the JSON-payload inspection helpers.
-/

namespace Claudian

/-- Modelled from the spec: a raw log record (`SDKNativeMessage`), whose
implementation module `sdkSession` is missing from the snapshot.  `uuid` is
the optional stable id, `parentUuid` the causal link, `rtype` the record
kind tag. -/
structure SRecord where
  uuid : Option String
  parentUuid : Option String
  rtype : String
deriving Repr, DecidableEq

/-- First-seen record holding a given id (spec 4.3 step 1: first-seen map). -/
def firstSeen (records : List SRecord) (i : String) : Option SRecord :=
  records.find? (fun r => r.uuid == some i)

/-- Deduplicate records by id, keeping the first occurrence of each id and
dropping unanchored records (spec 4.3 step 1). -/
def dedupRecordsAux : List SRecord → List String → List SRecord
  | [], _ => []
  | r :: rs, seen =>
    match r.uuid with
    | none => dedupRecordsAux rs seen
    | some i =>
      if i ∈ seen then dedupRecordsAux rs seen
      else r :: dedupRecordsAux rs (i :: seen)

/-- Modelled from the spec: step 1 deduplication of the missing
`filterActiveBranch`. -/
def dedupRecords (records : List SRecord) : List SRecord :=
  dedupRecordsAux records []

/-- Fan-out count of an id: how many distinct child ids point at it
(spec 4.3 step 2, computed over the deduplicated record set so duplicate
occurrences cannot double-count). -/
def childCount (records : List SRecord) (p : String) : Nat :=
  ((dedupRecords records).filter (fun r => r.parentUuid == some p)).length

/-- The leaf: the last record in log order that has an id with no children
(spec 4.3 step 3). -/
def findLeafId (records : List SRecord) : Option String :=
  records.reverse.findSome? (fun r =>
    match r.uuid with
    | some i => if childCount records i = 0 then some i else none
    | none => none)

/-- Parent id of an id, read from its first-seen record. -/
def parentOf (records : List SRecord) (i : String) : Option String :=
  (firstSeen records i).bind (·.parentUuid)

/-- Walk `parentId` links backward from a leaf to the root, fuel-bounded,
returning the chain root-first (spec 4.3 step 3). -/
def walkBack (records : List SRecord) : Nat → String → List String
  | 0, i => [i]
  | fuel + 1, i =>
    match parentOf records i with
    | none => [i]
    | some p => walkBack records fuel p ++ [i]

/-- Modelled from the spec: the active linear chain of ids of the missing
`filterActiveBranch` (spec 4.3 step 3). -/
def activeChain (records : List SRecord) : List String :=
  match findLeafId records with
  | none => []
  | some leaf => walkBack records records.length leaf

/-- Truncate a root-first chain immediately after `rid` (spec 4.3 step 4). -/
def chainUpTo : List String → String → List String
  | [], _ => []
  | x :: xs, rid => if x = rid then [x] else x :: chainUpTo xs rid

/-- Nearest anchored id before position `k` in log order. -/
def prevAnchoredId (records : List SRecord) (k : Nat) : Option String :=
  (records.take k).reverse.findSome? (·.uuid)

/-- Nearest anchored id after position `k` in log order. -/
def nextAnchoredId (records : List SRecord) (k : Nat) : Option String :=
  (records.drop (k + 1)).findSome? (·.uuid)

/-- Index of the first occurrence of an id. -/
def firstIdxOfId (records : List SRecord) (i : String) : Option Nat :=
  records.findIdx? (fun r => r.uuid == some i)

/-- Whether the record at position `k` is emitted for the given active chain:
anchored records are kept at their first occurrence when their id is on the
chain; unanchored records are kept only between two active records
(spec 4.3 step 6). -/
def keepInActive (records : List SRecord) (chain : List String) (k : Nat)
    (r : SRecord) : Bool :=
  match r.uuid with
  | some i => chain.contains i && (firstIdxOfId records i == some k)
  | none =>
    (match prevAnchoredId records k with
     | some p => chain.contains p
     | none => false) &&
    (match nextAnchoredId records k with
     | some n => chain.contains n
     | none => false)

/-- Modelled from the spec: re-emission of the active chain in log order for
the missing `filterActiveBranch` (spec 4.3 steps 3 and 6). -/
def emitActive (records : List SRecord) (chain : List String) : List SRecord :=
  (records.enum.filter (fun kr => keepInActive records chain kr.1 kr.2)).map (·.2)

/-- Whether any record anywhere carries the given id. -/
def existsId (records : List SRecord) (rid : String) : Bool :=
  records.any (fun r => r.uuid == some rid)

/-- Whether any id has fan-out at least two (spec 4.3 step 5's branching
test). -/
def hasBranching (records : List SRecord) : Bool :=
  (dedupRecords records).any (fun r =>
    match r.parentUuid with
    | some p => decide (2 ≤ childCount records p)
    | none => false)

/-- Direct log truncation at the first record carrying `rid`
(spec 4.3 step 5). -/
def truncateLogAt : List SRecord → String → List SRecord
  | [], _ => []
  | r :: rs, rid => if r.uuid == some rid then [r] else r :: truncateLogAt rs rid

/-- Modelled from the spec: the missing `filterActiveBranch` /
`resolveActiveBranch` (spec 4.3).  Steps: whole-log fallback when the resume
pointer exists nowhere (step 7); direct truncation when the graph has no
branching (step 5); otherwise leaf computation, backward walk, optional
truncation at the resume pointer when it lies on the chain, and re-emission
in log order (steps 1-4 and 6). -/
def resolveActiveBranch (records : List SRecord) (resumeAtId : Option String) :
    List SRecord :=
  match resumeAtId with
  | none => emitActive records (activeChain records)
  | some rid =>
    if existsId records rid then
      if hasBranching records then
        let chain := activeChain records
        if rid ∈ chain then emitActive records (chainUpTo chain rid)
        else emitActive records chain
      else truncateLogAt records rid
    else records

/-! Concrete fixtures from the unit tests of `filterActiveBranch`. -/

def ru1 : SRecord := ⟨some "u1", none, "user"⟩
def ra1 : SRecord := ⟨some "a1", some "u1", "assistant"⟩
def ru2 : SRecord := ⟨some "u2", some "a1", "user"⟩
def ra2 : SRecord := ⟨some "a2", some "u2", "assistant"⟩
def ru3 : SRecord := ⟨some "u3", some "a1", "user"⟩
def ra3 : SRecord := ⟨some "a3", some "u3", "assistant"⟩

/-- The branched log: chain u1→a1→u2→a2 plus a second fork u3→a3 at a1. -/
def branchedLog : List SRecord := [ru1, ra1, ru2, ra2, ru3, ra3]

/-- The linear log with a duplicate write of u2 appended. -/
def dupLog : List SRecord := [ru1, ra1, ru2, ra2, ru2]

/-! ## Message assembly: assistant-turn merging (spec 4.4)

The implementation (`loadSDKSessionMessages`) is missing from the snapshot;
the merge step is modelled from the spec and checked against its unit tests.
-/

/-- A content block of an assembled record: text or a tool-use reference. -/
inductive MBlock where
  | text (s : String)
  | toolUse (id name : String)
deriving Repr, DecidableEq

/-- Message role. -/
inductive MRole where
  | user
  | assistant
deriving Repr, DecidableEq

/-- Modelled from the spec: an active-branch record as seen by the missing
message assembler, reduced to the fields the merge step reads. -/
structure ARecord where
  uuid : String
  role : MRole
  blocks : List MBlock
deriving Repr, DecidableEq

/-- Modelled from the spec: an assembled chat message, reduced to the fields
the merge step writes.  `sdkAssistantUuid` is the terminal id used for
downstream resume actions. -/
structure AMessage where
  id : String
  role : MRole
  content : String
  blocks : List MBlock
  toolCalls : List (String × String)
  sdkAssistantUuid : Option String
deriving Repr, DecidableEq

/-- Join two texts with a blank-line separator, skipping empty sides
(spec 4.4: textual content joined with a blank-line separator). -/
def joinBlankLine (a b : String) : String :=
  if a = "" then b else if b = "" then a else a ++ "\n\n" ++ b

/-- Concatenated textual content of a record's text blocks. -/
def recContent (r : ARecord) : String :=
  (r.blocks.filterMap fun b =>
    match b with
    | .text s => some s
    | _ => none).foldl joinBlankLine ""

/-- Tool calls referenced by a record's tool-use blocks, in order. -/
def toolCallsOf (r : ARecord) : List (String × String) :=
  r.blocks.filterMap fun b =>
    match b with
    | .toolUse i n => some (i, n)
    | _ => none

/-- A fresh message built from a single record. -/
def messageOf (r : ARecord) : AMessage :=
  { id := r.uuid
    role := r.role
    content := recContent r
    blocks := r.blocks
    toolCalls := toolCallsOf r
    sdkAssistantUuid := match r.role with
      | .assistant => some r.uuid
      | .user => none }

/-- Merge a following assistant record into the current assistant message:
tool calls and blocks are concatenated in order, texts joined with a
blank-line separator, and the terminal id becomes the newer record's id
(spec 4.4's merge bullet). -/
def mergeAssistant (m : AMessage) (r : ARecord) : AMessage :=
  { m with
    content := joinBlankLine m.content (recContent r)
    blocks := m.blocks ++ r.blocks
    toolCalls := m.toolCalls ++ toolCallsOf r
    sdkAssistantUuid := some r.uuid }

/-- Forward pass over records, merging runs of assistant records. -/
def assembleAux : AMessage → List ARecord → List AMessage
  | m, [] => [m]
  | m, r :: rs =>
    match m.role, r.role with
    | .assistant, .assistant => assembleAux (mergeAssistant m r) rs
    | _, _ => m :: assembleAux (messageOf r) rs

/-- Modelled from the spec: the consecutive-assistant merge pass of the
missing message assembler (spec 4.4). -/
def assembleMessages : List ARecord → List AMessage
  | [] => []
  | r :: rs => assembleAux (messageOf r) rs

/-- Merge-scenario fixture: first assistant record carrying only a tool-use
block. -/
def mergeRec1 : ARecord := ⟨"a1", .assistant, [.toolUse "t1" "Read"]⟩

/-- Merge-scenario fixture: second assistant record carrying only text. -/
def mergeRec2 : ARecord := ⟨"a2", .assistant, [.text "Done!"]⟩

/-! ## Part B: JSON value model

The `SubagentManager` source (part_003) inspects `JSON.parse`d payloads.
`JVal` models a parsed JavaScript JSON value; numbers keep their lexeme
(claims never depend on numeric arithmetic) together with a zero flag for
JS truthiness. -/

inductive JVal where
  | jnull
  | jbool (b : Bool)
  | jnum (isZero : Bool) (raw : String)
  | jstr (s : String)
  | jarr (xs : List JVal)
  | jobj (fields : List (String × JVal))
deriving Repr

/-- Structural equality test for `JVal`. -/
def JVal.beq : JVal → JVal → Bool
  | .jnull, .jnull => true
  | .jbool a, .jbool b => a == b
  | .jnum za ra, .jnum zb rb => za == zb && ra == rb
  | .jstr a, .jstr b => a == b
  | .jarr xs, .jarr ys => beqList xs ys
  | .jobj xs, .jobj ys => beqFields xs ys
  | _, _ => false
where
  beqList : List JVal → List JVal → Bool
    | [], [] => true
    | x :: xs, y :: ys => JVal.beq x y && beqList xs ys
    | _, _ => false
  beqFields : List (String × JVal) → List (String × JVal) → Bool
    | [], [] => true
    | (k, v) :: xs, (k', v') :: ys => k == k' && JVal.beq v v' && beqFields xs ys
    | _, _ => false

instance : BEq JVal := ⟨JVal.beq⟩

/-- JavaScript truthiness of a JSON value. -/
def truthy : JVal → Bool
  | .jnull => false
  | .jbool b => b
  | .jnum isZero _ => !isZero
  | .jstr s => !s.isEmpty
  | .jarr _ => true
  | .jobj _ => true

/-- Named property access (`v.k`); `undefined` is modelled as `none`.
Dot access yields a value only on objects, as in the source's duck typing. -/
def jget : JVal → String → Option JVal
  | .jobj fields, k => (fields.find? (fun kv => kv.1 == k)).map (·.2)
  | _, _ => none

/-- Trim whitespace from both ends (JS `String.trim`), computed
structurally over the character list. -/
def strTrim (s : String) : String :=
  String.mk (((s.data.dropWhile jsWsTrim).reverse.dropWhile jsWsTrim).reverse)
where
  jsWsTrim (c : Char) : Bool :=
    [32, 9, 10, 13, 11, 12].contains c.toNat

/-- Structural prefix test on character lists. -/
def charsHavePre : List Char → List Char → Bool
  | [], _ => true
  | _ :: _, [] => false
  | n :: ns, h :: hs => n == h && charsHavePre ns hs

/-- Structural `String.startsWith`. -/
def strStartsWith (s pre : String) : Bool :=
  charsHavePre pre.data s.data

/-- Structural `String.endsWith`. -/
def strEndsWith (s suf : String) : Bool :=
  charsHavePre suf.data.reverse s.data.reverse

/-- Split a string at newline characters (structural `splitOn "\n"`). -/
def splitLines (s : String) : List String :=
  go s.data []
where
  go : List Char → List Char → List String
    | [], acc => [String.mk acc.reverse]
    | '\n' :: rest, acc => String.mk acc.reverse :: go rest []
    | c :: rest, acc => go rest (c :: acc)

/-- Structural decimal `String.toNat?`. -/
def strToNat? (s : String) : Option Nat :=
  if s.data.isEmpty || !s.data.all Char.isDigit then none
  else some (s.data.foldl (fun n c => n * 10 + (c.toNat - '0'.toNat)) 0)

/-- Bracket indexing (`v[k]`), additionally resolving numeric keys on arrays
and strings as JavaScript does. -/
def jsIndex : JVal → String → Option JVal
  | .jobj fields, k => (fields.find? (fun kv => kv.1 == k)).map (·.2)
  | .jarr xs, k =>
    match strToNat? k with
    | some n => xs.get? n
    | none => none
  | .jstr s, k =>
    match strToNat? k with
    | some n => (s.data.get? n).map (fun c => .jstr (String.mk [c]))
    | none => none
  | _, _ => none

/-- `a.k1 ?? a.k2` — first non-nullish of two named properties. -/
def jgetCoalesce (v : JVal) (k1 k2 : String) : Option JVal :=
  match jget v k1 with
  | some .jnull => jget v k2
  | some w => some w
  | none => jget v k2

/-- Named property required to be a string (`typeof v.k === 'string'`). -/
def jstrField (v : JVal) (k : String) : Option String :=
  match jget v k with
  | some (.jstr s) => some s
  | _ => none

/-- `Object.keys` semantics for the values the source feeds it. -/
def jsKeys : JVal → List String
  | .jobj fields => fields.map (·.1)
  | .jarr xs => (List.range xs.length).map toString
  | .jstr s => (List.range s.length).map toString
  | _ => []

/-- `Object.values` semantics for the values the source feeds it. -/
def jsValues : JVal → List JVal
  | .jobj fields => fields.map (·.2)
  | .jarr xs => xs
  | .jstr s => s.data.map (fun c => .jstr (String.mk [c]))
  | _ => []

/-- `Object.keys(x).length` without materialising the key list. -/
def jsKeysLen : JVal → Nat
  | .jobj fields => fields.length
  | .jarr xs => xs.length
  | .jstr s => s.length
  | _ => 0

/-! ### A JSON string parser mirroring `JSON.parse` -/

/-- JSON whitespace, by code point. -/
def jsonWs (c : Char) : Bool :=
  [32, 9, 10, 13].contains c.toNat

/-- Drop leading JSON whitespace. -/
def skipWs (input : List Char) : List Char :=
  match input with
  | c :: cs => if jsonWs c then skipWs cs else input
  | [] => []

/-- Hexadecimal digit value, by code point: digits, then the lowercase and
uppercase letter ranges. -/
def hexVal (c : Char) : Option Nat :=
  let n := c.toNat
  if 48 ≤ n && n ≤ 57 then some (n - 48)
  else if 97 ≤ n && n ≤ 102 then some (n - 87)
  else if 65 ≤ n && n ≤ 70 then some (n - 55)
  else none

/-- Parse a JSON string body (after the opening quote), returning the decoded
characters and the remainder after the closing quote. -/
def parseJStrAux : List Char → Option (List Char × List Char)
  | [] => none
  | '"' :: rest => some ([], rest)
  | '\\' :: 'u' :: h1 :: h2 :: h3 :: h4 :: rest =>
    match hexVal h1, hexVal h2, hexVal h3, hexVal h4 with
    | some a, some b, some c, some d =>
      (parseJStrAux rest).map
        (fun p => (Char.ofNat ((a * 16 + b) * 256 + (c * 16 + d)) :: p.1, p.2))
    | _, _, _, _ => none
  | '\\' :: e :: rest =>
    let cont := fun (c : Char) => (parseJStrAux rest).map (fun p => (c :: p.1, p.2))
    if e == '"' then cont '"'
    else if e == '\\' then cont '\\'
    else if e == '/' then cont '/'
    else if e == 'b' then cont (Char.ofNat 8)
    else if e == 'f' then cont (Char.ofNat 12)
    else if e == 'n' then cont '\n'
    else if e == 'r' then cont '\r'
    else if e == 't' then cont '\t'
    else none
  | c :: rest =>
    if c.toNat < 32 then none
    else (parseJStrAux rest).map (fun p => (c :: p.1, p.2))

/-- Split off leading decimal digits. -/
def spanDigits (cs : List Char) : List Char × List Char :=
  cs.span (·.isDigit)

/-- Parse a JSON number, returning its zero flag and lexeme. -/
def parseJNum (cs : List Char) : Option ((Bool × String) × List Char) :=
  let (neg, cs1) :=
    match cs with
    | '-' :: rest => (['-'], rest)
    | _ => (([] : List Char), cs)
  let (intPart, cs2) := spanDigits cs1
  if intPart.isEmpty then none
  else if intPart.head? == some '0' && intPart.length > 1 then none
  else
    let (fracPart, cs3) :=
      match cs2 with
      | '.' :: rest =>
        let (ds, rest') := spanDigits rest
        if ds.isEmpty then ([], cs2) else ('.' :: ds, rest')
      | _ => ([], cs2)
    if cs2 ≠ cs3 || (match cs2 with | '.' :: _ => false | _ => true) then
      let (expPart, cs4) :=
        match cs3 with
        | e :: rest =>
          if e == 'e' || e == 'E' then
            match rest with
            | s :: rest2 =>
              if s == '+' || s == '-' then
                let (ds, rest3) := spanDigits rest2
                if ds.isEmpty then ([], cs3) else (e :: s :: ds, rest3)
              else
                let (ds, rest3) := spanDigits rest
                if ds.isEmpty then ([], cs3) else (e :: ds, rest3)
            | [] => ([], cs3)
          else ([], cs3)
        | [] => ([], cs3)
      let isZero := intPart.all (· == '0') && fracPart.all (fun c => c == '0' || c == '.')
      some ((isZero, String.mk (neg ++ intPart ++ fracPart ++ expPart)), cs4)
    else none

/-- Insert a key into an object field list, overwriting an existing key at
its original position. -/
def jobjInsert : List (String × JVal) → String → JVal → List (String × JVal)
  | [], k, v => [(k, v)]
  | (k', v') :: rest, k, v =>
    if k' == k then (k', v) :: rest else (k', v') :: jobjInsert rest k v

mutual

/-- Fuel-bounded JSON value parser. -/
def parseJVal : Nat → List Char → Option (JVal × List Char)
  | 0, _ => none
  | fuel + 1, cs =>
    match skipWs cs with
    | [] => none
    | '"' :: rest => (parseJStrAux rest).map (fun p => (JVal.jstr (String.mk p.1), p.2))
    | 'n' :: 'u' :: 'l' :: 'l' :: rest => some (.jnull, rest)
    | 't' :: 'r' :: 'u' :: 'e' :: rest => some (.jbool true, rest)
    | 'f' :: 'a' :: 'l' :: 's' :: 'e' :: rest => some (.jbool false, rest)
    | '[' :: rest =>
      (match skipWs rest with
       | ']' :: rest' => some (.jarr [], rest')
       | other => parseJElems fuel other [])
    | '\x7b' :: rest =>
      (match skipWs rest with
       | '\x7d' :: rest' => some (.jobj [], rest')
       | other => parseJMembers fuel other [])
    | c :: rest =>
      if c == '-' || c.isDigit then
        (parseJNum (c :: rest)).map (fun p => (JVal.jnum p.1.1 p.1.2, p.2))
      else none

/-- Parse array elements after the opening bracket. -/
def parseJElems : Nat → List Char → List JVal → Option (JVal × List Char)
  | 0, _, _ => none
  | fuel + 1, cs, acc =>
    match parseJVal fuel cs with
    | none => none
    | some (v, rest) =>
      match skipWs rest with
      | ',' :: rest' => parseJElems fuel rest' (acc ++ [v])
      | ']' :: rest' => some (.jarr (acc ++ [v]), rest')
      | _ => none

/-- Parse object members after the opening brace (duplicate keys overwrite
in place, as `JSON.parse` does). -/
def parseJMembers : Nat → List Char → List (String × JVal) →
    Option (JVal × List Char)
  | 0, _, _ => none
  | fuel + 1, cs, acc =>
    match skipWs cs with
    | '"' :: rest =>
      match parseJStrAux rest with
      | none => none
      | some (keyChars, rest1) =>
        match skipWs rest1 with
        | ':' :: rest2 =>
          match parseJVal fuel rest2 with
          | none => none
          | some (v, rest3) =>
            let acc' := jobjInsert acc (String.mk keyChars) v
            match skipWs rest3 with
            | ',' :: rest4 => parseJMembers fuel rest4 acc'
            | '\x7d' :: rest4 => some (.jobj acc', rest4)
            | _ => none
        | _ => none
    | _ => none

end

/-- Model of `JSON.parse`: parse a complete JSON document, tolerating only
surrounding whitespace; any other input fails (the source catches the throw
and falls through). -/
def JSONParse (s : String) : Option JVal :=
  match parseJVal (2 * s.data.length + 8) s.data with
  | some (v, rest) => if (skipWs rest).isEmpty then some v else none
  | none => none

/-! ### String scanners mirroring the source's regular expressions -/

/-- ASCII lowercasing of a string. -/
def lowerStr (s : String) : String :=
  String.mk (s.data.map Char.toLower)

/-- Regex `\s` whitespace class (ASCII members), by code point. -/
def jsWsClass (c : Char) : Bool :=
  [32, 9, 10, 13, 11, 12].contains c.toNat

/-- Drop an exact literal, or fail. -/
def dropLit : List Char → List Char → Option (List Char)
  | [], s => some s
  | _ :: _, [] => none
  | c :: cs, x :: xs => if x == c then dropLit cs xs else none

/-- Drop an exact literal case-insensitively, or fail. -/
def dropLitCI : List Char → List Char → Option (List Char)
  | [], s => some s
  | _ :: _, [] => none
  | c :: cs, x :: xs => if x.toLower == c.toLower then dropLitCI cs xs else none

/-- Drop `\s*`. -/
def dropWsStar (s : List Char) : List Char :=
  match s with
  | [] => []
  | c :: cs => if jsWsClass c then dropWsStar cs else c :: cs

/-- Leftmost-match regex scan: try the matcher at every position, left to
right. -/
def scanFor (m : List Char → Option String) : List Char → Option String
  | [] => none
  | c :: rest =>
    match m (c :: rest) with
    | some r => some r
    | none => scanFor m rest

/-- Matcher for `/"KEY"\s*:\s*"([^"]+)"/` anchored at the current position. -/
def matchQuotedAt (key : List Char) (s : List Char) : Option String := do
  let s ← dropLit ('"' :: key ++ ['"']) s
  let s := dropWsStar s
  let s ← dropLit [':'] s
  let s := dropWsStar s
  let s ← dropLit ['"'] s
  let (cap, rest) := s.span (fun c => c != '"')
  if cap.isEmpty then none
  else
    match rest with
    | '"' :: _ => some (String.mk cap)
    | _ => none

/-- Character class `[a-zA-Z0-9_-]`. -/
def idChar (c : Char) : Bool :=
  c == '_' || c == '-' || c.isAlphanum

/-- Matcher for `/KEY[=:]\s*"?([a-zA-Z0-9_-]+)"?/i` anchored at the current
position. -/
def matchKVAt (key : List Char) (s : List Char) : Option String := do
  let s ← dropLitCI key s
  let s ←
    match s with
    | c :: rest => if c == '=' || c == ':' then some rest else none
    | [] => none
  let s := dropWsStar s
  let s :=
    match s with
    | '"' :: rest => rest
    | _ => s
  let (cap, _) := s.span idChar
  if cap.isEmpty then none else some (String.mk cap)

/-- Lowercase-hex character class `[a-f0-9]`. -/
def isHexLowerChar (c : Char) : Bool :=
  c.isDigit || (97 ≤ c.toNat && c.toNat ≤ 102)

/-- Regex word character (`\w`). -/
def isWordChar (c : Char) : Bool :=
  c == '_' || c.isAlphanum

/-- Matcher for eight lowercase-hex characters followed by a word boundary,
anchored at the current position. -/
def matchHex8At (s : List Char) : Option String :=
  match s with
  | c1 :: c2 :: c3 :: c4 :: c5 :: c6 :: c7 :: c8 :: rest =>
    if [c1, c2, c3, c4, c5, c6, c7, c8].all isHexLowerChar then
      match rest with
      | [] => some (String.mk [c1, c2, c3, c4, c5, c6, c7, c8])
      | n :: _ =>
        if isWordChar n then none
        else some (String.mk [c1, c2, c3, c4, c5, c6, c7, c8])
    else none
  | _ => none

/-- Leftmost scan for `/\b([a-f0-9]{8})\b/`, tracking the previous character
for the leading word boundary. -/
def scanHex8 : Option Char → List Char → Option String
  | prev, s =>
    let boundaryOk :=
      match prev with
      | some p => !isWordChar p
      | none => true
    match (if boundaryOk then matchHex8At s else none) with
    | some r => some r
    | none =>
      match s with
      | [] => none
      | c :: rest => scanHex8 (some c) rest

/-- Whether `needle` occurs as a substring of `hay` (`String.includes`). -/
def hasSubStr (hay needle : String) : Bool :=
  go hay.data needle.data
where
  go : List Char → List Char → Bool
    | hay, needle =>
      match hay with
      | [] => needle.isEmpty
      | _ :: rest => charsHavePre needle hay || go rest needle

/-- Index of the first occurrence of `needle` in `hay`, if any. -/
def findSubIdx (hay needle : List Char) : Option Nat :=
  match hay with
  | [] => if needle.isEmpty then some 0 else none
  | _ :: rest =>
    if charsHavePre needle hay then some 0
    else (findSubIdx rest needle).map (· + 1)

/-- Model of `extractTagContent`: regex
`<TAG>\s*([\s\S]*?)\s*</TAG>` case-insensitively — the content between the
first opening tag and the first closing tag after it, trimmed; empty content
yields `null`. -/
def extractTagContent (payload tagName : String) : Option String :=
  let hay := (lowerStr payload).data
  let openTag := ("<" ++ lowerStr tagName ++ ">").data
  let closeTag := ("</" ++ lowerStr tagName ++ ">").data
  match findSubIdx hay openTag with
  | none => none
  | some i =>
    let contentStart := i + openTag.length
    match findSubIdx (hay.drop contentStart) closeTag with
    | none => none
    | some j =>
      let content := String.mk ((payload.data.drop contentStart).take j)
      let trimmed := strTrim content
      if trimmed.isEmpty then none else some trimmed

/-- Matcher for `/\[Truncated\.\s*Full output:\s*([^\]\n]+)\]/i` anchored at
the current position, returning the raw capture. -/
def matchTruncatedAt (s : List Char) : Option String := do
  let s ← dropLitCI "[truncated.".data s
  let s := dropWsStar s
  let s ← dropLitCI "full output:".data s
  let s := dropWsStar s
  let (cap, rest) := s.span (fun c => c != ']' && c != '\n')
  if cap.isEmpty then none
  else
    match rest with
    | ']' :: _ => some (String.mk cap)
    | _ => none

/-- Matcher for `/<status>([^<]+)<\/status>/` anchored at the current
position (applied to an already-lowercased haystack). -/
def matchStatusTagAt (s : List Char) : Option String := do
  let s ← dropLit "<status>".data s
  let (cap, rest) := s.span (fun c => c != '<')
  if cap.isEmpty then none
  else
    match dropLit "</status>".data rest with
    | some _ => some (String.mk cap)
    | none => none

/-! ### `JSON.stringify(v, null, 2)` -/

/-- Escape and quote a string as `JSON.stringify` does. -/
def quoteJStr (s : String) : String :=
  "\"" ++ String.join (s.data.map escapeChar) ++ "\""
where
  hexDigit (n : Nat) : Char :=
    if n < 10 then Char.ofNat ('0'.toNat + n) else Char.ofNat ('a'.toNat + n - 10)
  escapeChar (c : Char) : String :=
    if c == '"' then "\\\""
    else if c == '\\' then "\\\\"
    else if c == '\n' then "\\n"
    else if c == '\r' then "\\r"
    else if c == '\t' then "\\t"
    else if c == Char.ofNat 8 then "\\b"
    else if c == Char.ofNat 12 then "\\f"
    else if c.toNat < 32 then
      "\\u00" ++ String.mk [hexDigit (c.toNat / 16), hexDigit (c.toNat % 16)]
    else String.mk [c]

mutual

/-- Pretty-print a value with two-space indentation, `ind` being the current
indent of the enclosing container. -/
def jsonStringifyV : JVal → String → String
  | .jnull, _ => "null"
  | .jbool b, _ => if b then "true" else "false"
  | .jnum _ raw, _ => raw
  | .jstr s, _ => quoteJStr s
  | .jarr [], _ => "[]"
  | .jarr (x :: xs), ind =>
    "[\n" ++ String.intercalate ",\n" (jsonStringifyL (x :: xs) (ind ++ "  ")) ++
      "\n" ++ ind ++ "]"
  | .jobj [], _ => "\x7b\x7d"
  | .jobj (f :: fs), ind =>
    "\x7b\n" ++ String.intercalate ",\n" (jsonStringifyF (f :: fs) (ind ++ "  ")) ++
      "\n" ++ ind ++ "\x7d"

/-- Pretty-print array items at the given indent. -/
def jsonStringifyL : List JVal → String → List String
  | [], _ => []
  | x :: xs, ind => (ind ++ jsonStringifyV x ind) :: jsonStringifyL xs ind

/-- Pretty-print object members at the given indent. -/
def jsonStringifyF : List (String × JVal) → String → List String
  | [], _ => []
  | (k, v) :: fs, ind =>
    (ind ++ quoteJStr k ++ ": " ++ jsonStringifyV v ind) :: jsonStringifyF fs ind

end

/-- Model of `JSON.stringify(v, null, 2)`. -/
def jsonStringify (v : JVal) : String :=
  jsonStringifyV v ""

/-! ### Filesystem model and trusted sidecar paths

`readFullOutputFile` / `isTrustedOutputPath` perform guarded filesystem
access; the filesystem is a parameter.  A throwing `realpathSync` or
`readFileSync` is modelled by `none`. -/

/-- The ambient filesystem: `tmpdir()`, `realpathSync`, `existsSync`,
`readFileSync` (with `none` standing for a thrown error / absence). -/
structure FSModel where
  tmpdirPath : String
  realpath : String → Option String
  pathOnDisk : String → Bool
  readFile : String → Option String

/-- First-occurrence deduplication of a string list (JS `Set` insertion
order), with a seen accumulator. -/
def dedupFirstStrAux : List String → List String → List String
  | [], _ => []
  | x :: xs, seen =>
    if x ∈ seen then dedupFirstStrAux xs seen
    else x :: dedupFirstStrAux xs (x :: seen)

/-- First-occurrence deduplication of a string list (JS `Set` insertion
order). -/
def dedupFirstStr (l : List String) : List String :=
  dedupFirstStrAux l []

/-- Embeds `SubagentManager.TRUSTED_OUTPUT_EXT`. -/
def TRUSTED_OUTPUT_EXT : String := ".output"

/-- Embeds `SubagentManager.resolveTrustedTmpRoots`: realpaths of the tmp
dir, `/tmp` and `/private/tmp`, deduplicated, unavailable roots skipped. -/
def resolveTrustedTmpRoots (fs : FSModel) : List String :=
  dedupFirstStr ([fs.tmpdirPath, "/tmp", "/private/tmp"].filterMap fs.realpath)

/-- POSIX `path.isAbsolute`. -/
def posixIsAbsolute (p : String) : Bool :=
  strStartsWith p "/"

/-- Embeds `SubagentManager.isTrustedOutputPath`: absolute, expected
extension (case-insensitively), and realpath inside an allow-listed tmp
root. -/
def isTrustedOutputPath (fs : FSModel) (fullOutputPath : String) : Bool :=
  if !posixIsAbsolute fullOutputPath then false
  else if !strEndsWith (lowerStr fullOutputPath) TRUSTED_OUTPUT_EXT then false
  else
    match fs.realpath fullOutputPath with
    | none => false
    | some resolvedPath =>
      (resolveTrustedTmpRoots fs).any (fun root =>
        resolvedPath == root || strStartsWith resolvedPath (root ++ "/"))

/-- Embeds `SubagentManager.readFullOutputFile`: guarded read returning
`none` for untrusted paths, missing files, failing reads, or blank
content. -/
def readFullOutputFile (fs : FSModel) (fullOutputPath : String) :
    Option String :=
  if !isTrustedOutputPath fs fullOutputPath then none
  else if !fs.pathOnDisk fullOutputPath then none
  else
    match fs.readFile fullOutputPath with
    | none => none
    | some fileContent =>
      let trimmed := strTrim fileContent
      if trimmed.isEmpty then none else some trimmed

/-! ### SubagentManager payload inspection helpers -/

/-- Embeds `SubagentManager.unwrapTextPayload`: unwraps a JSON content-block
envelope (`[...{text}...]` or `{text}`) to its text, otherwise the raw
string. -/
def unwrapTextPayload (raw : String) : String :=
  match JSONParse raw with
  | some (.jarr xs) =>
    (match xs.find? (fun b => truthy b && (jstrField b "text").isSome) with
     | some b =>
       match jstrField b "text" with
       | some s => if s.isEmpty then raw else s
       | none => raw
     | none => raw)
  | some (.jobj fields) =>
    (match jstrField (.jobj fields) "text" with
     | some s => s
     | none => raw)
  | _ => raw

/-- Embeds `SubagentManager.extractAgentIdFromString`: the four agent-id
regex patterns tried in order. -/
def extractAgentIdFromString (value : String) : Option String :=
  match scanFor (matchQuotedAt "agent_id".data) value.data with
  | some r => some r
  | none =>
  match scanFor (matchQuotedAt "agentId".data) value.data with
  | some r => some r
  | none =>
  match scanFor (matchKVAt "agent_id".data) value.data with
  | some r => some r
  | none => scanFor (matchKVAt "agentId".data) value.data

/-- Whether a value is a JS object (`typeof v === 'object'` and not null):
plain objects and arrays. -/
def isObjLike : JVal → Bool
  | .jobj _ => true
  | .jarr _ => true
  | _ => false

/-- Embeds `SubagentManager.parseAgentIdStrict`: structured-field patterns
only; deliberately no bare-hex heuristic. -/
def parseAgentIdStrict (result : String) : Option String :=
  match extractAgentIdFromString result with
  | some fromRaw => some fromRaw
  | none =>
  let payload := unwrapTextPayload result
  match extractAgentIdFromString payload with
  | some fromPayload => some fromPayload
  | none =>
  match JSONParse result with
  | none => none
  | some parsed =>
    let fromBlocks : Option String :=
      match parsed with
      | .jarr blocks =>
        blocks.findSome? (fun block =>
          match jstrField block "text" with
          | some t => extractAgentIdFromString t
          | none => none)
      | _ => none
    match fromBlocks with
    | some r => some r
    | none =>
      let chain : Option JVal :=
        match jget parsed "agent_id" with
        | some v =>
          if truthy v then some v
          else
            (match jget parsed "agentId" with
             | some w =>
               if truthy w then some w
               else (jget parsed "data").bind (fun d => jget d "agent_id")
             | none => (jget parsed "data").bind (fun d => jget d "agent_id"))
        | none =>
          match jget parsed "agentId" with
          | some w =>
            if truthy w then some w
            else (jget parsed "data").bind (fun d => jget d "agent_id")
          | none => (jget parsed "data").bind (fun d => jget d "agent_id")
      match chain with
      | some (.jstr s) => if s.isEmpty then none else some s
      | _ => none

/-- Embeds `SubagentManager.hasAsyncMarkerInToolUseResult`: explicit async
flag, agent-identifier field (top level or under `data`), `async_launched`
status, output-file pointer, or an embedded agent-id pattern in content. -/
def hasAsyncMarkerInToolUseResult (taskToolUseResult : Option JVal) : Bool :=
  match taskToolUseResult with
  | none => false
  | some record =>
    if !(truthy record && isObjLike record) then false
    else if (match jget record "isAsync" with
             | some (.jbool true) => true
             | _ => false) then true
    else if (match jgetCoalesce record "agentId" "agent_id" with
             | some (.jstr s) => !s.isEmpty
             | _ => false) then true
    else if (match jget record "data" with
             | some d =>
               truthy d && isObjLike d &&
                 (match jgetCoalesce d "agent_id" "agentId" with
                  | some (.jstr s) => !s.isEmpty
                  | _ => false)
             | none => false) then true
    else if (match jget record "status" with
             | some (.jstr s) => lowerStr s == "async_launched"
             | _ => false) then true
    else if (match jget record "outputFile" with
             | some (.jstr s) => !s.isEmpty
             | _ => false) then true
    else if (match jget record "content" with
             | some (.jarr blocks) =>
               blocks.any (fun block =>
                 match block with
                 | .jstr s => (extractAgentIdFromString s).isSome
                 | _ =>
                   if truthy block && isObjLike block then
                     match jstrField block "text" with
                     | some t => (extractAgentIdFromString t).isSome
                     | none => false
                   else false)
             | _ => false) then true
    else if (match jget record "content" with
             | some (.jstr s) => (extractAgentIdFromString s).isSome
             | _ => false) then true
    else false

/-- Task execution mode. -/
inductive TaskMode where
  | sync
  | async
deriving Repr, DecidableEq

/-- Embeds `SubagentManager.inferModeFromTaskResult`: error results are
sync; otherwise async exactly when a structured or strict textual async
marker is present. -/
def inferModeFromTaskResult (taskResult : String) (isError : Bool)
    (taskToolUseResult : Option JVal) : TaskMode :=
  if isError then .sync
  else if hasAsyncMarkerInToolUseResult taskToolUseResult then .async
  else if (parseAgentIdStrict taskResult).isSome then .async
  else .sync

/-- `parsed.retrieval_status || parsed.status` — the first truthy of the two
properties, else the second's value. -/
def statusField (parsed : JVal) : Option JVal :=
  match jget parsed "retrieval_status" with
  | some v => if truthy v then some v else jget parsed "status"
  | none => jget parsed "status"

/-- Strict equality of a possibly-absent JS value with a string literal. -/
def optIsStr (o : Option JVal) (s : String) : Bool :=
  match o with
  | some (.jstr t) => t == s
  | _ => false

/-- Embeds `SubagentManager.isStillRunningResult`: structured status fields
and per-agent status maps on parsed JSON, else substring and tagged-status
heuristics on the raw text. -/
def isStillRunningResult (result : String) (isError : Bool) : Bool :=
  let trimmed := strTrim result
  let payload := unwrapTextPayload trimmed
  if isError then false
  else if trimmed.isEmpty then false
  else
    match JSONParse payload with
    | some parsed =>
      let status := statusField parsed
      let agents := jget parsed "agents"
      let hasAgents :=
        match agents with
        | some ag => truthy ag && decide (0 < jsKeysLen ag)
        | none => false
      if optIsStr status "not_ready" || optIsStr status "running" ||
          optIsStr status "pending" then true
      else if hasAgents then
        let agentStatuses := (jsValues ((agents).getD .jnull)).map (fun a =>
          match jget a "status" with
          | some (.jstr s) => lowerStr s
          | _ => "")
        agentStatuses.any (fun s =>
          s == "running" || s == "pending" || s == "not_ready")
      else
        -- the remaining source branches (success / completed / default)
        -- all return false
        false
    | none =>
      let lowerResult := lowerStr payload
      if hasSubStr lowerResult "not_ready" || hasSubStr lowerResult "not ready" then
        true
      else
        match scanFor matchStatusTagAt lowerResult.data with
        | some s =>
          let st := strTrim s
          st == "running" || st == "pending" || st == "not_ready"
        | none => false

/-! ### Result extraction chain (`extractAgentResult` and helpers) -/

/-- Embeds `SubagentManager.extractAssistantResultFromJsonl`: scan JSONL
lines for the last assistant-authored text block, falling back to the last
top-level `result` field. -/
def extractAssistantResultFromJsonl (content : String) : Option String :=
  let lines := ((splitLines content).map strTrim).filter
    (fun line => !line.isEmpty && strStartsWith line "\x7b")
  let acc := lines.foldl (fun (acc : Option String × Option String) line =>
    match JSONParse line with
    | none => acc
    | some parsed =>
      let lastResultText :=
        match jget parsed "result" with
        | some (.jstr s) => if (strTrim s).isEmpty then acc.2 else some (strTrim s)
        | _ => acc.2
      let lastAssistantText :=
        match jget parsed "message" with
        | some message =>
          let roleIsAssistant := optIsStr (jget message "role") "assistant"
          (match jget message "content" with
           | some (.jarr contentBlocks) =>
             contentBlocks.foldl (fun cur block =>
               if roleIsAssistant && truthy block && isObjLike block &&
                   optIsStr (jget block "type") "text" then
                 match jstrField block "text" with
                 | some t => if (strTrim t).isEmpty then cur else some (strTrim t)
                 | none => cur
               else cur) acc.1
           | _ => acc.1)
        | none => acc.1
      (lastAssistantText, lastResultText)) (none, none)
  match acc.1 with
  | some t => some t
  | none => acc.2

/-- Embeds `SubagentManager.extractFullOutputPath`: the trimmed path inside
a truncation marker, if non-empty. -/
def extractFullOutputPath (content : String) : Option String :=
  match scanFor matchTruncatedAt content.data with
  | none => none
  | some cap =>
    let outputPath := strTrim cap
    if outputPath.isEmpty then none else some outputPath

/-- Embeds `SubagentManager.extractResultFromOutputJsonl`: inline JSONL scan
first, then the guarded sidecar read behind a truncation marker. -/
def extractResultFromOutputJsonl (fs : FSModel) (outputContent : String) :
    Option String :=
  match extractAssistantResultFromJsonl outputContent with
  | some inlineResult => some inlineResult
  | none =>
  match extractFullOutputPath outputContent with
  | none => none
  | some fullOutputPath =>
  match readFullOutputFile fs fullOutputPath with
  | none => none
  | some fullOutput => extractAssistantResultFromJsonl fullOutput

/-- Embeds `SubagentManager.extractResultFromTaggedPayload`: `<result>` tag
first, else `<output>` whose content is unwrapped one more level. -/
def extractResultFromTaggedPayload (fs : FSModel) (payload : String) :
    Option String :=
  match extractTagContent payload "result" with
  | some directResult => some directResult
  | none =>
  match extractTagContent payload "output" with
  | none => none
  | some outputContent =>
    match extractResultFromOutputJsonl fs outputContent with
    | some extractedFromJsonl => some extractedFromJsonl
    | none =>
    match extractTagContent outputContent "result" with
    | some nestedResult => some nestedResult
    | none =>
      let trimmed := strTrim outputContent
      if trimmed.isEmpty then none else some trimmed

/-- Embeds `SubagentManager.extractResultFromCandidateString`: a non-blank
string candidate, unwrapped through tagged and JSONL envelopes, else
trimmed. -/
def extractResultFromCandidateString (fs : FSModel) (candidate : Option JVal) :
    Option String :=
  match candidate with
  | some (.jstr c) =>
    let trimmed := strTrim c
    if trimmed.isEmpty then none
    else
      match extractResultFromTaggedPayload fs trimmed with
      | some taggedResult => some taggedResult
      | none =>
      match extractResultFromOutputJsonl fs trimmed with
      | some jsonlResult => some jsonlResult
      | none => some trimmed
  | _ => none

/-- Embeds `SubagentManager.extractResultFromTaskObject`: the `result` then
`output` candidate of a structured task object. -/
def extractResultFromTaskObject (fs : FSModel) (task : Option JVal) :
    Option String :=
  match task with
  | some t =>
    if !(truthy t && isObjLike t) then none
    else
      match extractResultFromCandidateString fs (jget t "result") with
      | some r => some r
      | none => extractResultFromCandidateString fs (jget t "output")
  | none => none

/-- Embeds `SubagentManager.extractResultFromToolUseResult`: structured
task / result / output candidates, else the first text content block. -/
def extractResultFromToolUseResult (fs : FSModel) (toolUseResult : Option JVal) :
    Option String :=
  match toolUseResult with
  | none => none
  | some record =>
    if !(truthy record && isObjLike record) then none
    else
      let fromFields :=
        match extractResultFromTaskObject fs (jget record "task") with
        | some r => some r
        | none =>
          match extractResultFromCandidateString fs (jget record "result") with
          | some r => some r
          | none => extractResultFromCandidateString fs (jget record "output")
      match fromFields with
      | some r => some r
      | none =>
        match jget record "content" with
        | some (.jarr blocks) =>
          (match blocks.find? (fun b =>
              truthy b && isObjLike b && optIsStr (jget b "type") "text" &&
                (jstrField b "text").isSome) with
           | some firstText =>
             (match jstrField firstText "text" with
              | some t =>
                let text := strTrim t
                if text.isEmpty then none else some text
              | none => none)
           | none => none)
        | _ => none

/-- The `result`-then-`output`-then-pretty-printed chain applied to one
agent-map entry (source lines inside both agents branches). -/
def extractFromAgentEntry (fs : FSModel) (agentData : JVal) : String :=
  match extractResultFromCandidateString fs (jget agentData "result") with
  | some parsedResult => parsedResult
  | none =>
    match extractResultFromCandidateString fs (jget agentData "output") with
    | some parsedOutput => parsedOutput
    | none => jsonStringify agentData

/-- Embeds the parsed-JSON interior of `SubagentManager.extractAgentResult`
(its `try` block): task object first, then the per-agent map keyed by the
context agent id, then the first map entry, then top-level
`result`/`output`. -/
def extractAgentResultParsed (fs : FSModel) (parsed : JVal)
    (agentId : String) : Option String :=
  match extractResultFromTaskObject fs (jget parsed "task") with
  | some taskResult => some taskResult
  | none =>
    let agentsBranch : Option String :=
      match jget parsed "agents" with
      | none => none
      | some ag =>
        if truthy ag && !agentId.isEmpty &&
            (match jsIndex ag agentId with
             | some entry => truthy entry
             | none => false) then
          some (extractFromAgentEntry fs ((jsIndex ag agentId).getD .jnull))
        else if truthy ag then
          match jsKeys ag with
          | [] => none
          | k0 :: _ => some (extractFromAgentEntry fs ((jsIndex ag k0).getD .jnull))
        else none
    match agentsBranch with
    | some r => some r
    | none =>
      match extractResultFromCandidateString fs (jget parsed "result") with
      | some parsedResult => some parsedResult
      | none => extractResultFromCandidateString fs (jget parsed "output")

/-- Embeds `SubagentManager.extractAgentResult`: structured tool-use result
first, then the parsed-JSON precedence chain (task object, per-agent map
keyed by the context agent id, first map entry, top-level result/output),
then tagged markers, then the unwrapped payload itself. -/
def extractAgentResult (fs : FSModel) (result : String) (agentId : String)
    (toolUseResult : Option JVal) : String :=
  match extractResultFromToolUseResult fs toolUseResult with
  | some structuredResult => structuredResult
  | none =>
  let payload := unwrapTextPayload result
  let fromParsed : Option String :=
    match JSONParse payload with
    | none => none
    | some parsed => extractAgentResultParsed fs parsed agentId
  match fromParsed with
  | some r => r
  | none =>
    match extractResultFromTaggedPayload fs payload with
    | some taggedResult => taggedResult
    | none => payload

/-! ### Agent-id extraction and the async lifecycle state machine -/

/-- JS string coercion of a JSON value, used where the source returns a
truthy `data.agent_id` without a type check. -/
def jvalIdString : JVal → String
  | .jstr s => s
  | .jnum _ raw => raw
  | .jbool b => if b then "true" else "false"
  | .jnull => "null"
  | .jarr _ => ""
  | .jobj _ => "[object Object]"

/-- Embeds `SubagentManager.parseAgentId`: the four structured-field
patterns plus the bare `\b[a-f0-9]{8}\b` heuristic, then JSON fallbacks
(`agent_id`/`agentId`, `data.agent_id`, `id`). -/
def parseAgentId (result : String) : Option String :=
  match extractAgentIdFromString result with
  | some m => some m
  | none =>
  match scanHex8 none result.data with
  | some m => some m
  | none =>
  match JSONParse result with
  | none => none
  | some parsed =>
    let agentIdV : Option JVal :=
      match jget parsed "agent_id" with
      | some v => if truthy v then some v else jget parsed "agentId"
      | none => jget parsed "agentId"
    match agentIdV with
    | some (.jstr s) => if s.isEmpty then tailFallbacks parsed else some s
    | _ => tailFallbacks parsed
where
  tailFallbacks (parsed : JVal) : Option String :=
    match (jget parsed "data").bind (fun d => jget d "agent_id") with
    | some v =>
      if truthy v then some (jvalIdString v)
      else
        match jget parsed "id" with
        | some (.jstr s) => if s.isEmpty then none else some s
        | _ => none
    | none =>
      match jget parsed "id" with
      | some (.jstr s) => if s.isEmpty then none else some s
      | _ => none

/-- Embeds `SubagentManager.extractAgentIdFromTaskToolUseResult`: direct
agent-id fields, fields nested under `data`, then pattern extraction from
content blocks or a content string. -/
def extractAgentIdFromTaskToolUseResult (toolUseResult : Option JVal) :
    Option String :=
  match toolUseResult with
  | none => none
  | some record =>
    if !(truthy record && isObjLike record) then none
    else
      match jgetCoalesce record "agent_id" "agentId" with
      | some (.jstr s) =>
        if !s.isEmpty then some s else nested record
      | _ => nested record
where
  contentFallback (record : JVal) : Option String :=
    match jget record "content" with
    | some (.jarr blocks) =>
      blocks.findSome? (fun block =>
        match block with
        | .jstr s => extractAgentIdFromString s
        | _ =>
          if truthy block && isObjLike block then
            match jstrField block "text" with
            | some t => extractAgentIdFromString t
            | none => none
          else none)
    | some (.jstr s) => extractAgentIdFromString s
    | _ => none
  nested (record : JVal) : Option String :=
    match jget record "data" with
    | some d =>
      if truthy d && isObjLike d then
        match jgetCoalesce d "agent_id" "agentId" with
        | some (.jstr s) => if !s.isEmpty then some s else contentFallback record
        | _ => contentFallback record
      else contentFallback record
    | none => contentFallback record

/-- Embeds `SubagentManager.inferAgentIdFromResult`: the first key of a
parsed `agents` map. -/
def inferAgentIdFromResult (result : String) : Option String :=
  match JSONParse result with
  | none => none
  | some parsed =>
    match jget parsed "agents" with
    | some agents =>
      if truthy agents && isObjLike agents then
        match jsKeys agents with
        | [] => none
        | k :: _ => some k
      else none
    | none => none

/-- Sub-task surface status (mirrors the owning tool call's status). -/
inductive SStatus where
  | running
  | completed
  | error
deriving Repr, DecidableEq

/-- Async lifecycle status. -/
inductive AStatus where
  | pending
  | running
  | completed
  | error
  | orphaned
deriving Repr, DecidableEq

/-- Embeds the `SubagentInfo` lifecycle record (fields the manager reads or
writes). -/
structure SubagentInfo where
  id : String
  description : String
  prompt : String
  mode : TaskMode
  isExpanded : Bool := false
  status : SStatus
  asyncStatus : Option AStatus := none
  agentId : Option String := none
  result : Option String := none
  startedAt : Option Nat := none
  completedAt : Option Nat := none
  outputToolId : Option String := none
deriving Repr, DecidableEq

/-- An insertion-ordered map with JS `Map` semantics over an association
list. -/
abbrev JMap (α : Type) : Type := List (String × α)

/-- `Map.get`. -/
def jmapGet {α : Type} : JMap α → String → Option α
  | [], _ => none
  | (k', v) :: rest, k => if k' == k then some v else jmapGet rest k

/-- `Map.set`: overwrite in place or append. -/
def jmapSet {α : Type} (m : JMap α) (k : String) (v : α) : JMap α :=
  match m with
  | [] => [(k, v)]
  | (k', v') :: rest =>
    if k' == k then (k', v) :: rest else (k', v') :: jmapSet rest k v

/-- `Map.delete`. -/
def jmapDelete {α : Type} (m : JMap α) (k : String) : JMap α :=
  match m with
  | [] => []
  | (k', v') :: rest =>
    if k' == k then rest else (k', v') :: jmapDelete rest k

/-- `Map.values()`. -/
def jmapValues {α : Type} (m : JMap α) : List α :=
  List.map (·.2) m

/-- The mutable tracking maps of a `SubagentManager` relevant to the async
lifecycle. -/
structure MgrState where
  pendingAsyncSubagents : JMap SubagentInfo
  activeAsyncSubagents : JMap SubagentInfo
  taskIdToAgentId : JMap String
  outputToolIdToAgentId : JMap String
deriving Repr, DecidableEq

/-- Embeds `SubagentManager.markOrphaned`'s field updates on one task. -/
def markOrphanedInfo (subagent : SubagentInfo) (now : Nat) : SubagentInfo :=
  { subagent with
    asyncStatus := some .orphaned
    status := .error
    result := some "Conversation ended before task completed"
    completedAt := some now }

/-- Embeds `SubagentManager.orphanAllActive`: orphan every pending task and
every running active task (each emitting one state-change notification),
then clear all four tracking maps.  Returns the new state, the function's
return value, and the emitted notifications in order. -/
def orphanAllActive (st : MgrState) (now : Nat) :
    MgrState × List SubagentInfo × List SubagentInfo :=
  let orphanedPending :=
    (jmapValues st.pendingAsyncSubagents).map (fun s => markOrphanedInfo s now)
  let orphanedActive :=
    ((jmapValues st.activeAsyncSubagents).filter
      (fun s => s.asyncStatus == some .running)).map
      (fun s => markOrphanedInfo s now)
  let orphaned := orphanedPending ++ orphanedActive
  (⟨[], [], [], []⟩, orphaned, orphaned)

/-- Embeds `SubagentManager.transitionToError`: error fields, removal from
the pending map, one notification. -/
def transitionToError (st : MgrState) (subagent : SubagentInfo)
    (taskToolId : String) (errorResult : String) (now : Nat) :
    MgrState × List SubagentInfo :=
  let sub' := { subagent with
    asyncStatus := some .error
    status := .error
    result := some errorResult
    completedAt := some now }
  ({ st with
      pendingAsyncSubagents := jmapDelete st.pendingAsyncSubagents taskToolId },
    [sub'])

/-- Embeds `SubagentManager.handleTaskToolResult`: on the task's own inline
result, error transitions directly; otherwise the agent id is extracted
structurally, then via `parseAgentId`; failure is an error transition with a
truncated diagnostic; success transitions to running and registers the
agent id.  Returns the new state and the notifications emitted. -/
def handleTaskToolResult (st : MgrState) (taskToolId : String)
    (result : String) (isError : Bool) (toolUseResult : Option JVal)
    (now : Nat) : MgrState × List SubagentInfo :=
  match jmapGet st.pendingAsyncSubagents taskToolId with
  | none => (st, [])
  | some subagent =>
    if isError then
      transitionToError st subagent taskToolId
        (if result.isEmpty then "Task failed to start" else result) now
    else
      match (match extractAgentIdFromTaskToolUseResult toolUseResult with
             | some a => some a
             | none => parseAgentId result) with
      | none =>
        let truncatedResult :=
          if result.length > 100 then result.take 100 ++ "..." else result
        transitionToError st subagent taskToolId
          ("Failed to parse agent_id. Result: " ++ truncatedResult) now
      | some agentId =>
        let sub' := { subagent with
          asyncStatus := some .running
          agentId := some agentId
          startedAt := some now }
        ({ st with
            pendingAsyncSubagents := jmapDelete st.pendingAsyncSubagents taskToolId
            activeAsyncSubagents := jmapSet st.activeAsyncSubagents agentId sub'
            taskIdToAgentId := jmapSet st.taskIdToAgentId taskToolId agentId },
          [sub'])

/-- Embeds `SubagentManager.handleAgentOutputToolResult`: correlate an
agent-output tool result to a running task (directly, or inferred from the
result's agents map); if the content indicates the task is still running,
clear the correlation and change nothing else; otherwise finalize.  Returns
the new state, the function's return value, and the notifications
emitted. -/
def handleAgentOutputToolResult (fs : FSModel) (st : MgrState)
    (toolId : String) (result : String) (isError : Bool)
    (toolUseResult : Option JVal) (now : Nat) :
    MgrState × Option SubagentInfo × List SubagentInfo :=
  let agentId0 := jmapGet st.outputToolIdToAgentId toolId
  let subagent0 :=
    match agentId0 with
    | some a => if a.isEmpty then none else jmapGet st.activeAsyncSubagents a
    | none => none
  let lookup : Option String × Option SubagentInfo :=
    match subagent0 with
    | some s => (agentId0, some s)
    | none =>
      match inferAgentIdFromResult result with
      | some inferred =>
        if inferred.isEmpty then (agentId0, none)
        else (some inferred, jmapGet st.activeAsyncSubagents inferred)
      | none => (agentId0, none)
  match lookup.2 with
  | none => (st, none, [])
  | some subagent =>
    let step1 : MgrState × SubagentInfo :=
      match lookup.1 with
      | some aid =>
        if aid.isEmpty then (st, subagent)
        else
          let sub' := { subagent with
            agentId :=
              match subagent.agentId with
              | some x => if x.isEmpty then some aid else some x
              | none => some aid }
          ({ st with
              activeAsyncSubagents := jmapSet st.activeAsyncSubagents aid sub'
              outputToolIdToAgentId := jmapSet st.outputToolIdToAgentId toolId aid },
            sub')
      | none => (st, subagent)
    let st1 := step1.1
    let sub1 := step1.2
    if sub1.asyncStatus ≠ some .running then (st1, none, [])
    else if isStillRunningResult result isError then
      ({ st1 with
          outputToolIdToAgentId := jmapDelete st1.outputToolIdToAgentId toolId },
        some sub1, [])
    else
      let extractedResult :=
        extractAgentResult fs result (lookup.1.getD "") toolUseResult
      let sub2 := { sub1 with
        asyncStatus := some (if isError then .error else .completed)
        status := if isError then .error else .completed
        result := some extractedResult
        completedAt := some now }
      let active' :=
        match lookup.1 with
        | some aid => jmapDelete st1.activeAsyncSubagents aid
        | none => st1.activeAsyncSubagents
      ({ st1 with
          activeAsyncSubagents := active'
          outputToolIdToAgentId := jmapDelete st1.outputToolIdToAgentId toolId },
        some sub2, [sub2])

/-! ### Concrete fixtures for the Part B claims -/

/-- A filesystem with identity realpath on which no file exists. -/
def fsIdEmpty : FSModel := ⟨"/tmp", fun p => some p, fun _ => false, fun _ => none⟩

/-- A filesystem on which every path exists but every read throws. -/
def fsReadFail : FSModel := ⟨"/tmp", fun p => some p, fun _ => true, fun _ => none⟩

/-- C4 counterexample payload: an agents map in which the context id `a` is
a key whose entry is `null`. -/
def c4Payload : String :=
  "\x7b\"agents\":\x7b\"b\":\x7b\"result\":\"B\"\x7d,\"a\":null\x7d\x7d"

/-- C4 fixture: agents map with two truthy entries plus a top-level result. -/
def c4TwoAgents : String :=
  "\x7b\"agents\":\x7b\"a\":\x7b\"result\":\"A\"\x7d,\"b\":\x7b\"result\":\"B\"\x7d\x7d,\"result\":\"TOP\"\x7d"

/-- C4 fixture: a task sub-object above an agents map and a top-level
result. -/
def c4TaskPayload : String :=
  "\x7b\"task\":\x7b\"result\":\"TASK\"\x7d,\"agents\":\x7b\"a\":\x7b\"result\":\"A\"\x7d\x7d,\"result\":\"TOP\"\x7d"

/-- C8 fixture: a structurally complete content-block payload whose text
merely contains the substring `not_ready` as user content. -/
def c8NotReadyText : String :=
  "[\x7b\"type\":\"text\",\"text\":\"Deployment complete but flag not_ready remains\"\x7d]"

/-- C8/C10 fixture: a pending async task. -/
def pendingFix : SubagentInfo :=
  { id := "task1", description := "bg", prompt := "do it", mode := .async,
    status := .running, asyncStatus := some .pending }

/-- C8 fixture: a running async task registered under agent id `ag1`. -/
def runningFix : SubagentInfo :=
  { id := "task2", description := "d", prompt := "p", mode := .async,
    status := .running, asyncStatus := some .running, agentId := some "ag1" }

/-- C7 fixture: a completed async task (not orphaned at teardown). -/
def completedFix : SubagentInfo :=
  { id := "task3", description := "d", prompt := "p", mode := .async,
    status := .completed, asyncStatus := some .completed, agentId := some "ag2" }

/-- C10 fixture: manager state with one pending async task. -/
def st10 : MgrState := ⟨[("task1", pendingFix)], [], [], []⟩

/-- C10 fixture: a non-error launch result whose text contains a bare
8-character lowercase-hex token (a commit hash) and no agent-id field. -/
def launchText : String := "Launched. Commit deadbeef pushed."

/-- C8 fixture: manager state with one running task correlated to output
tool id `ot1`. -/
def st8 : MgrState :=
  ⟨[], [("ag1", runningFix)], [("task2", "ag1")], [("ot1", "ag1")]⟩

/-- C7 fixture: manager state with one pending, one running and one
completed task. -/
def st7 : MgrState :=
  ⟨[("task1", pendingFix)], [("ag1", runningFix), ("ag2", completedFix)],
    [("task2", "ag1")], [("ot1", "ag1")]⟩

/-! ## Theorems -/

/-- Unfold: deduplication skips an unanchored record. -/
theorem dedupRecordsAux_cons_none (a : SRecord) (l : List SRecord)
    (seen : List String) (ha : a.uuid = none) :
    dedupRecordsAux (a :: l) seen = dedupRecordsAux l seen := by
  simp [dedupRecordsAux, ha]

/-- Unfold: deduplication skips an already-seen id. -/
theorem dedupRecordsAux_cons_seen (a : SRecord) (l : List SRecord)
    (seen : List String) (j : String) (ha : a.uuid = some j) (hj : j ∈ seen) :
    dedupRecordsAux (a :: l) seen = dedupRecordsAux l seen := by
  simp [dedupRecordsAux, ha, hj]

/-- Unfold: deduplication keeps the first occurrence of a new id. -/
theorem dedupRecordsAux_cons_new (a : SRecord) (l : List SRecord)
    (seen : List String) (j : String) (ha : a.uuid = some j) (hj : j ∉ seen) :
    dedupRecordsAux (a :: l) seen = a :: dedupRecordsAux l (j :: seen) := by
  simp [dedupRecordsAux, ha, hj]

/-- Appending a record whose id already occurred (or already counts as
seen) leaves the deduplicated record list unchanged. -/
theorem dedupRecordsAux_append_dup (r : SRecord) :
    ∀ (l : List SRecord) (seen : List String),
      (∀ i, r.uuid = some i → (∃ r' ∈ l, r'.uuid = some i) ∨ i ∈ seen) →
      dedupRecordsAux (l ++ [r]) seen = dedupRecordsAux l seen := by
  intro l
  induction l with
  | nil =>
    intro seen h
    cases hr : r.uuid with
    | none => simp [dedupRecordsAux, hr]
    | some i =>
      rcases h i hr with ⟨r', hr', _⟩ | hin
      · exact absurd hr' (List.not_mem_nil r')
      · simp [dedupRecordsAux, hr, hin]
  | cons a l ih =>
    intro seen h
    cases ha : a.uuid with
    | none =>
      rw [List.cons_append, dedupRecordsAux_cons_none a _ seen ha,
        dedupRecordsAux_cons_none a l seen ha]
      apply ih
      intro i hi
      rcases h i hi with ⟨r', hr', hu⟩ | hin
      · rcases List.mem_cons.mp hr' with hrr | hmem
        · rw [hrr, ha] at hu; exact absurd hu (by simp)
        · exact Or.inl ⟨r', hmem, hu⟩
      · exact Or.inr hin
    | some j =>
      by_cases hj : j ∈ seen
      · rw [List.cons_append, dedupRecordsAux_cons_seen a _ seen j ha hj,
          dedupRecordsAux_cons_seen a l seen j ha hj]
        apply ih
        intro i hi
        rcases h i hi with ⟨r', hr', hu⟩ | hin
        · rcases List.mem_cons.mp hr' with hrr | hmem
          · rw [hrr, ha] at hu
            cases hu
            exact Or.inr hj
          · exact Or.inl ⟨r', hmem, hu⟩
        · exact Or.inr hin
      · rw [List.cons_append, dedupRecordsAux_cons_new a _ seen j ha hj,
          dedupRecordsAux_cons_new a l seen j ha hj]
        congr 1
        apply ih
        intro i hi
        rcases h i hi with ⟨r', hr', hu⟩ | hin
        · rcases List.mem_cons.mp hr' with hrr | hmem
          · rw [hrr, ha] at hu
            cases hu
            exact Or.inr (List.mem_cons_self j seen)
          · exact Or.inl ⟨r', hmem, hu⟩
        · exact Or.inr (List.mem_cons_of_mem j hin)

/-- Appending a duplicate of an existing record leaves the deduplicated
record list unchanged. -/
theorem dedupRecords_append_dup (records : List SRecord) (r : SRecord)
    (hr : r ∈ records) :
    dedupRecords (records ++ [r]) = dedupRecords records := by
  apply dedupRecordsAux_append_dup
  intro i hi
  exact Or.inl ⟨r, hr, hi⟩

/-- Appending a duplicate record does not change any fan-out count. -/
theorem childCount_append_dup (records : List SRecord) (r : SRecord)
    (hr : r ∈ records) (p : String) :
    childCount (records ++ [r]) p = childCount records p := by
  unfold childCount
  rw [dedupRecords_append_dup records r hr]

/-- Appending a duplicate record does not change the branching test. -/
theorem hasBranching_append_dup (records : List SRecord) (r : SRecord)
    (hr : r ∈ records) :
    hasBranching (records ++ [r]) = hasBranching records := by
  unfold hasBranching
  rw [dedupRecords_append_dup records r hr]
  have hfg : (fun r' : SRecord =>
      match r'.parentUuid with
      | some p => decide (2 ≤ childCount (records ++ [r]) p)
      | none => false) = (fun r' : SRecord =>
      match r'.parentUuid with
      | some p => decide (2 ≤ childCount records p)
      | none => false) := by
    funext r'
    cases hp : r'.parentUuid with
    | none => rfl
    | some p => simp [childCount_append_dup records r hr p]
  rw [hfg]

/-- Truncating a chain at a member ends exactly at that member. -/
theorem chainUpTo_getLast :
    ∀ (l : List String) (rid : String), rid ∈ l →
      (chainUpTo l rid).getLast? = some rid := by
  intro l
  induction l with
  | nil => intro rid h; exact absurd h (List.not_mem_nil rid)
  | cons x xs ih =>
    intro rid h
    by_cases hx : x = rid
    · subst hx; simp [chainUpTo]
    · have hm : rid ∈ xs := by
        rcases List.mem_cons.mp h with h' | h'
        · exact absurd h'.symm hx
        · exact h'
      have ihm := ih rid hm
      simp only [chainUpTo, if_neg hx]
      cases hc : chainUpTo xs rid with
      | nil => rw [hc] at ihm; simp at ihm
      | cons y ys =>
        rw [hc] at ihm
        rw [List.getLast?_cons_cons]
        exact ihm

/-- C1: Branch resolution picks the newest branch.  On the log
u1→a1→u2→a2 plus a second fork u3→a3 parented at a1 (appearing later in
log order), the active branch with no resume pointer is exactly
[u1, a1, u3, a3]; in general the result is the log-order re-emission of
the backward parentId walk from the leaf `findLeafId` chooses — the last
record in log order whose id is not a parent of any record — and on the
scenario that leaf is a3 with chain [u1, a1, u3, a3]. -/
theorem C1_branch_resolution_newest :
    resolveActiveBranch branchedLog none = [ru1, ra1, ru3, ra3] ∧
    (∀ records : List SRecord,
      resolveActiveBranch records none =
        emitActive records
          (match findLeafId records with
           | none => []
           | some leaf => walkBack records records.length leaf)) ∧
    findLeafId branchedLog = some "a3" ∧
    activeChain branchedLog = ["u1", "a1", "u3", "a3"] :=
  ⟨by decide, fun _ => rfl, by decide, by decide⟩

/-- C2: Duplicate-id tolerance.  Appending a duplicate of a record already
in the log changes no fan-out count and no branching classification; the
linear chain u1→a1→u2→a2 with a duplicate of u2 appended is not
misclassified as branched and resolves to the same active branch as the
deduplicated list. -/
theorem C2_duplicate_id_tolerance :
    (∀ (records : List SRecord) (r : SRecord), r ∈ records →
      (∀ p, childCount (records ++ [r]) p = childCount records p) ∧
      hasBranching (records ++ [r]) = hasBranching records) ∧
    hasBranching dupLog = false ∧
    resolveActiveBranch dupLog none = [ru1, ra1, ru2, ra2] ∧
    resolveActiveBranch [ru1, ra1, ru2, ra2] none = [ru1, ra1, ru2, ra2] :=
  ⟨fun records r hr =>
      ⟨childCount_append_dup records r hr, hasBranching_append_dup records r hr⟩,
    by decide, by decide, by decide⟩

/-- Closed instance of C2's quantified part at the duplicate scenario. -/
theorem C2_duplicate_id_tolerance_witness :
    ru2 ∈ dupLog ∧
    childCount (dupLog ++ [ru2]) "a1" = childCount dupLog "a1" ∧
    hasBranching (dupLog ++ [ru2]) = hasBranching dupLog :=
  ⟨by decide, (C2_duplicate_id_tolerance.1 dupLog ru2 (by decide)).1 "a1",
    (C2_duplicate_id_tolerance.1 dupLog ru2 (by decide)).2⟩

/-- C3: Resume-pointer safety fallbacks.  A resume id that exists nowhere
returns the input unchanged; a resume id that exists but lies off the
active chain of a branched log is ignored, returning the full active
branch; a resume id on the active chain truncates the chain immediately
after it, making it the new leaf. -/
theorem C3_resume_pointer_safety :
    ∀ (records : List SRecord) (rid : String),
      (existsId records rid = false →
        resolveActiveBranch records (some rid) = records) ∧
      (existsId records rid = true → hasBranching records = true →
        rid ∉ activeChain records →
        resolveActiveBranch records (some rid) =
          resolveActiveBranch records none) ∧
      (existsId records rid = true → hasBranching records = true →
        rid ∈ activeChain records →
        resolveActiveBranch records (some rid) =
          emitActive records (chainUpTo (activeChain records) rid) ∧
        (chainUpTo (activeChain records) rid).getLast? = some rid) := by
  intro records rid
  refine ⟨?_, ?_, ?_⟩
  · intro h
    simp [resolveActiveBranch, h]
  · intro h1 h2 h3
    simp [resolveActiveBranch, h1, h2, h3]
  · intro h1 h2 h3
    exact ⟨by simp [resolveActiveBranch, h1, h2, h3],
      chainUpTo_getLast _ _ h3⟩

/-- Closed instance of C3 on the branched log: a nonexistent pointer, a
stale pointer on the abandoned branch, and an on-chain pointer. -/
theorem C3_resume_pointer_safety_witness :
    (existsId branchedLog "ghost" = false ∧
      resolveActiveBranch branchedLog (some "ghost") = branchedLog) ∧
    (existsId branchedLog "a2" = true ∧ hasBranching branchedLog = true ∧
      "a2" ∉ activeChain branchedLog ∧
      resolveActiveBranch branchedLog (some "a2") =
        resolveActiveBranch branchedLog none) ∧
    ("a1" ∈ activeChain branchedLog ∧
      resolveActiveBranch branchedLog (some "a1") =
        emitActive branchedLog (chainUpTo (activeChain branchedLog) "a1") ∧
      (chainUpTo (activeChain branchedLog) "a1").getLast? = some "a1") :=
  ⟨⟨by decide, (C3_resume_pointer_safety branchedLog "ghost").1 (by decide)⟩,
    ⟨by decide, by decide, by decide,
      (C3_resume_pointer_safety branchedLog "a2").2.1 (by decide) (by decide)
        (by decide)⟩,
    ⟨by decide,
      ((C3_resume_pointer_safety branchedLog "a1").2.2 (by decide) (by decide)
        (by decide)).1,
      ((C3_resume_pointer_safety branchedLog "a1").2.2 (by decide) (by decide)
        (by decide)).2⟩⟩

/-- C9: Assistant merge terminal identity.  Two consecutive assistant-kind
records merge into one message whose tool calls and content blocks are the
in-order concatenation, whose text joins the non-empty texts with a
blank-line separator, and whose terminal id is the last merged record's id;
on the scenario (tool-use-only record then text-only record) the merged
message has one tool call and terminal id a2. -/
theorem C9_assistant_merge_terminal_identity :
    (∀ r1 r2 : ARecord, r1.role = .assistant → r2.role = .assistant →
      assembleMessages [r1, r2] =
        [{ id := r1.uuid
           role := .assistant
           content := joinBlankLine (recContent r1) (recContent r2)
           blocks := r1.blocks ++ r2.blocks
           toolCalls := toolCallsOf r1 ++ toolCallsOf r2
           sdkAssistantUuid := some r2.uuid }]) ∧
    assembleMessages [mergeRec1, mergeRec2] =
      [{ id := "a1", role := .assistant, content := "Done!"
         blocks := [.toolUse "t1" "Read", .text "Done!"]
         toolCalls := [("t1", "Read")], sdkAssistantUuid := some "a2" }] ∧
    ((assembleMessages [mergeRec1, mergeRec2]).map
      (fun m => m.toolCalls.length)) = [1] := by
  refine ⟨?_, by decide, by decide⟩
  intro r1 r2 h1 h2
  obtain ⟨u1, ρ1, b1⟩ := r1
  obtain ⟨u2, ρ2, b2⟩ := r2
  cases h1
  cases h2
  rfl

/-- Closed instance of C9's quantified part at the merge scenario. -/
theorem C9_assistant_merge_witness :
    mergeRec1.role = MRole.assistant ∧ mergeRec2.role = MRole.assistant ∧
    assembleMessages [mergeRec1, mergeRec2] =
      [{ id := mergeRec1.uuid
         role := .assistant
         content := joinBlankLine (recContent mergeRec1) (recContent mergeRec2)
         blocks := mergeRec1.blocks ++ mergeRec2.blocks
         toolCalls := toolCallsOf mergeRec1 ++ toolCallsOf mergeRec2
         sdkAssistantUuid := some mergeRec2.uuid }] :=
  ⟨rfl, rfl, C9_assistant_merge_terminal_identity.1 mergeRec1 mergeRec2 rfl rfl⟩

/-- C5: Guarded sidecar read.  A sidecar path is trusted exactly when it is
absolute, carries the expected `.output` extension (case-insensitively),
and its symlink-resolved realpath lies inside an allow-listed
temporary-directory root; an untrusted path is never read (the read step
returns none), and a failing read also returns none — the model is total,
so no case raises. -/
theorem C5_guarded_sidecar_read :
    ∀ (fs : FSModel) (p : String),
      (isTrustedOutputPath fs p = true ↔
        (posixIsAbsolute p = true ∧
          strEndsWith (lowerStr p) TRUSTED_OUTPUT_EXT = true ∧
          ∃ rp, fs.realpath p = some rp ∧
            ∃ root ∈ resolveTrustedTmpRoots fs,
              (rp == root || strStartsWith rp (root ++ "/")) = true)) ∧
      (isTrustedOutputPath fs p = false → readFullOutputFile fs p = none) ∧
      (fs.readFile p = none → readFullOutputFile fs p = none) := by
  intro fs p
  refine ⟨?_, ?_, ?_⟩
  · unfold isTrustedOutputPath
    cases habs : posixIsAbsolute p <;>
      cases hext : strEndsWith (lowerStr p) TRUSTED_OUTPUT_EXT <;>
      cases hrp : fs.realpath p <;>
      simp [List.any_eq_true]
  · intro h
    unfold readFullOutputFile
    rw [h]
    simp
  · intro hrf
    unfold readFullOutputFile
    rw [hrf]
    cases isTrustedOutputPath fs p <;> cases fs.pathOnDisk p <;> simp

/-- Closed instance of C5 at a relative path and at a trusted path whose
read fails. -/
theorem C5_guarded_sidecar_read_witness :
    (isTrustedOutputPath fsIdEmpty "relative.output" = false ∧
      readFullOutputFile fsIdEmpty "relative.output" = none) ∧
    (isTrustedOutputPath fsIdEmpty "/etc/x.output" = false ∧
      readFullOutputFile fsIdEmpty "/etc/x.output" = none) ∧
    (isTrustedOutputPath fsIdEmpty "/tmp/x.txt" = false ∧
      readFullOutputFile fsIdEmpty "/tmp/x.txt" = none) ∧
    (fsReadFail.readFile "/tmp/a.output" = none ∧
      readFullOutputFile fsReadFail "/tmp/a.output" = none) :=
  ⟨⟨by decide,
      (C5_guarded_sidecar_read fsIdEmpty "relative.output").2.1 (by decide)⟩,
    ⟨by decide, (C5_guarded_sidecar_read fsIdEmpty "/etc/x.output").2.1 (by decide)⟩,
    ⟨by decide, (C5_guarded_sidecar_read fsIdEmpty "/tmp/x.txt").2.1 (by decide)⟩,
    ⟨rfl, (C5_guarded_sidecar_read fsReadFail "/tmp/a.output").2.2 rfl⟩⟩

/-- C6: Task mode inference.  An error result always infers sync,
regardless of any async markers; a non-error result infers async exactly
when the structured tool-use result carries an async marker or the strict
textual matcher finds an agent id; the spec's scenario payload infers
async. -/
theorem C6_task_mode_inference :
    (∀ (taskResult : String) (tur : Option JVal),
      inferModeFromTaskResult taskResult true tur = .sync) ∧
    (∀ (taskResult : String) (tur : Option JVal),
      inferModeFromTaskResult taskResult false tur = .async ↔
        (hasAsyncMarkerInToolUseResult tur = true ∨
          (parseAgentIdStrict taskResult).isSome = true)) ∧
    inferModeFromTaskResult "\x7b\"agentId\":\"abc123\"\x7d" false none =
      .async ∧
    inferModeFromTaskResult "\x7b\"agentId\":\"abc123\"\x7d" true
      (some (.jobj [("isAsync", .jbool true)])) = .sync := by
  refine ⟨?_, ?_, by decide, by decide⟩
  · intro taskResult tur
    simp [inferModeFromTaskResult]
  · intro taskResult tur
    cases hm : hasAsyncMarkerInToolUseResult tur <;>
      cases hs : (parseAgentIdStrict taskResult).isSome <;>
      simp [inferModeFromTaskResult, hm, hs]

/-- C7: Orphaning on teardown.  `orphanAllActive` orphans every pending
task and every running active task, each orphan carrying asyncStatus
orphaned, status error and the fixed ended-before-completion message; one
notification is emitted per orphaned task; all four tracking maps are
cleared; a second invocation orphans nothing and emits nothing. -/
theorem C7_orphaning_teardown :
    ∀ (st : MgrState) (now now2 : Nat),
      ((orphanAllActive st now).2.1 =
        ((jmapValues st.pendingAsyncSubagents).map
          (fun s => markOrphanedInfo s now)) ++
        (((jmapValues st.activeAsyncSubagents).filter
            (fun s => s.asyncStatus == some .running)).map
          (fun s => markOrphanedInfo s now))) ∧
      (∀ s ∈ (orphanAllActive st now).2.1,
        s.asyncStatus = some .orphaned ∧ s.status = .error ∧
        s.result = some "Conversation ended before task completed" ∧
        s.completedAt = some now) ∧
      ((orphanAllActive st now).2.2 = (orphanAllActive st now).2.1) ∧
      ((orphanAllActive st now).1 = ⟨[], [], [], []⟩) ∧
      (orphanAllActive (orphanAllActive st now).1 now2 =
        ((orphanAllActive st now).1, [], [])) := by
  intro st now now2
  refine ⟨rfl, ?_, rfl, rfl, rfl⟩
  intro s hs
  rcases List.mem_append.mp hs with hmem | hmem
  · obtain ⟨t, _, rfl⟩ := List.mem_map.mp hmem
    exact ⟨rfl, rfl, rfl, rfl⟩
  · obtain ⟨t, _, rfl⟩ := List.mem_map.mp hmem
    exact ⟨rfl, rfl, rfl, rfl⟩

/-- Closed instance of C7 at a state holding one pending, one running and
one completed task. -/
theorem C7_orphaning_witness :
    markOrphanedInfo runningFix 9 ∈ (orphanAllActive st7 9).2.1 ∧
    ((markOrphanedInfo runningFix 9).asyncStatus = some AStatus.orphaned ∧
      (markOrphanedInfo runningFix 9).status = SStatus.error ∧
      (markOrphanedInfo runningFix 9).result =
        some "Conversation ended before task completed" ∧
      (markOrphanedInfo runningFix 9).completedAt = some 9) :=
  ⟨by decide, (C7_orphaning_teardown st7 9 0).2.1 _ (by decide)⟩

/-- A key absent from the key list looks up to nothing. -/
theorem jmapGet_eq_none_of_not_mem {α : Type} :
    ∀ (m : JMap α) (k : String), k ∉ m.map Prod.fst → jmapGet m k = none := by
  intro m
  induction m with
  | nil => intro k _; rfl
  | cons kv rest ih =>
    intro k h
    simp only [List.map_cons, List.mem_cons, not_or] at h
    obtain ⟨h1, h2⟩ := h
    have hbeq : (kv.1 == k) = false :=
      beq_eq_false_iff_ne.mpr (fun he => h1 he.symm)
    obtain ⟨k', v⟩ := kv
    simp only [jmapGet, hbeq]
    exact ih k h2

/-- A key of the updated map was a key before or is the written key. -/
theorem mem_keys_jmapSet {α : Type} :
    ∀ (m : JMap α) (k : String) (v : α) (a : String),
      a ∈ (jmapSet m k v).map Prod.fst → a ∈ m.map Prod.fst ∨ a = k := by
  intro m
  induction m with
  | nil =>
    intro k v a h
    simp only [jmapSet, List.map_cons, List.map_nil, List.mem_singleton] at h
    exact Or.inr h
  | cons kv rest ih =>
    intro k v a h
    obtain ⟨k', v'⟩ := kv
    by_cases hbeq : (k' == k) = true
    · simp only [jmapSet, hbeq, if_true, List.map_cons, List.mem_cons] at h ⊢
      rcases h with h | h
      · exact Or.inl (Or.inl h)
      · exact Or.inl (Or.inr h)
    · simp only [jmapSet, hbeq, if_false, Bool.false_eq_true, List.map_cons,
        List.mem_cons] at h ⊢
      rcases h with h | h
      · exact Or.inl (Or.inl h)
      · rcases ih k v a h with h' | h'
        · exact Or.inl (Or.inr h')
        · exact Or.inr h'

/-- `Map.set` preserves key uniqueness. -/
theorem jmapSet_nodup {α : Type} :
    ∀ (m : JMap α) (k : String) (v : α),
      (m.map Prod.fst).Nodup → ((jmapSet m k v).map Prod.fst).Nodup := by
  intro m
  induction m with
  | nil =>
    intro k v _
    simp [jmapSet]
  | cons kv rest ih =>
    intro k v h
    obtain ⟨k', v'⟩ := kv
    simp only [List.map_cons, List.nodup_cons] at h
    obtain ⟨hk', hrest⟩ := h
    by_cases hbeq : (k' == k) = true
    · simp only [jmapSet, hbeq, if_true, List.map_cons, List.nodup_cons]
      exact ⟨hk', hrest⟩
    · simp only [jmapSet, hbeq, if_false, Bool.false_eq_true, List.map_cons,
        List.nodup_cons]
      refine ⟨?_, ih k v hrest⟩
      intro hmem
      rcases mem_keys_jmapSet rest k v k' hmem with h' | h'
      · exact hk' h'
      · have hbeq' : (k' == k) = false := by simpa using hbeq
        exact beq_eq_false_iff_ne.mp hbeq' h'

/-- Deleting a key from a unique-key map removes it from lookup. -/
theorem jmapGet_jmapDelete_self {α : Type} :
    ∀ (m : JMap α) (k : String),
      (m.map Prod.fst).Nodup → jmapGet (jmapDelete m k) k = none := by
  intro m
  induction m with
  | nil => intro k _; rfl
  | cons kv rest ih =>
    intro k h
    obtain ⟨k', v'⟩ := kv
    simp only [List.map_cons, List.nodup_cons] at h
    obtain ⟨hk', hrest⟩ := h
    by_cases hbeq : (k' == k) = true
    · simp only [jmapDelete, hbeq, if_true]
      have : k = k' := (beq_iff_eq.mp hbeq).symm
      subst this
      exact jmapGet_eq_none_of_not_mem rest k hk'
    · have hbeq' : (k' == k) = false := by simpa using hbeq
      simp only [jmapDelete, hbeq', Bool.false_eq_true, if_false, jmapGet]
      exact ih k hrest

/-- C8: Still-running agent-output results cause no transition.  For an
agent-output tool result correlated to a running async task whose content
indicates the task is still running, the task's asyncStatus, status and
result are unchanged, the output-tool-id correlation is cleared, no
notification is emitted, and the pending/task-id maps are untouched; and a
structurally complete content-block payload whose text merely contains the
substring not_ready is classified as still running, as are structured
status fields, per-agent status maps and tagged status markers. -/
theorem C8_still_running_no_transition :
    (∀ (fs : FSModel) (st : MgrState) (toolId result : String)
        (tur : Option JVal) (now : Nat) (aid : String) (sub : SubagentInfo),
      (st.outputToolIdToAgentId.map Prod.fst).Nodup →
      jmapGet st.outputToolIdToAgentId toolId = some aid →
      aid.isEmpty = false →
      jmapGet st.activeAsyncSubagents aid = some sub →
      sub.asyncStatus = some .running →
      isStillRunningResult result false = true →
      ∃ sub',
        handleAgentOutputToolResult fs st toolId result false tur now =
          ({ st with
              activeAsyncSubagents := jmapSet st.activeAsyncSubagents aid sub'
              outputToolIdToAgentId :=
                jmapDelete (jmapSet st.outputToolIdToAgentId toolId aid) toolId },
            some sub', []) ∧
        sub'.asyncStatus = sub.asyncStatus ∧
        sub'.status = sub.status ∧
        sub'.result = sub.result ∧
        jmapGet
          (jmapDelete (jmapSet st.outputToolIdToAgentId toolId aid) toolId)
          toolId = none) ∧
    isStillRunningResult c8NotReadyText false = true ∧
    isStillRunningResult "\x7b\"status\":\"not_ready\"\x7d" false = true ∧
    isStillRunningResult
      "\x7b\"agents\":\x7b\"a\":\x7b\"status\":\"running\"\x7d\x7d\x7d" false =
      true ∧
    isStillRunningResult "<status>pending</status>" false = true := by
  refine ⟨?_, by decide, by decide, by decide, by decide⟩
  intro fs st toolId result tur now aid sub hnd h2 h3 h4 h5 h6
  refine ⟨{ sub with agentId := match sub.agentId with
      | some x => if x.isEmpty then some aid else some x
      | none => some aid }, ?_, rfl, rfl, rfl,
    jmapGet_jmapDelete_self _ _ (jmapSet_nodup _ _ _ hnd)⟩
  unfold handleAgentOutputToolResult
  simp only [h2, h3, h4, h5, h6, Bool.false_eq_true, if_false, ne_eq,
    Option.some.injEq, reduceCtorEq, not_true_eq_false, if_true]

/-- C10: Asymmetric agent-id extraction.  `parseAgentId` includes the bare
8-character lowercase-hex heuristic, so a non-error launch result whose
text contains a commit hash and no agent-id field yields that token, while
`parseAgentIdStrict` yields nothing (so inference classifies the result
sync); on launch confirmation the task transitions to running with that
token registered as its agent id. -/
theorem C10_bare_hex_agent_id :
    parseAgentId launchText = some "deadbeef" ∧
    parseAgentIdStrict launchText = none ∧
    inferModeFromTaskResult launchText false none = .sync ∧
    handleTaskToolResult st10 "task1" launchText false none 5 =
      (⟨[],
        [("deadbeef",
          { pendingFix with
            asyncStatus := some .running
            agentId := some "deadbeef"
            startedAt := some 5 })],
        [("task1", "deadbeef")], []⟩,
        [{ pendingFix with
            asyncStatus := some .running
            agentId := some "deadbeef"
            startedAt := some 5 }]) :=
  ⟨by decide, by decide, by decide, by decide⟩

/-- Closed instance of C8's quantified part: a running task correlated to
output tool id ot1 receives a still-running payload. -/
theorem C8_still_running_witness :
    ((st8.outputToolIdToAgentId.map Prod.fst).Nodup ∧
      jmapGet st8.outputToolIdToAgentId "ot1" = some "ag1" ∧
      ("ag1" : String).isEmpty = false ∧
      jmapGet st8.activeAsyncSubagents "ag1" = some runningFix ∧
      runningFix.asyncStatus = some AStatus.running ∧
      isStillRunningResult c8NotReadyText false = true) ∧
    (∃ sub',
      handleAgentOutputToolResult fsIdEmpty st8 "ot1" c8NotReadyText false
          none 7 =
        ({ st8 with
            activeAsyncSubagents := jmapSet st8.activeAsyncSubagents "ag1" sub'
            outputToolIdToAgentId :=
              jmapDelete (jmapSet st8.outputToolIdToAgentId "ot1" "ag1") "ot1" },
          some sub', []) ∧
      sub'.asyncStatus = runningFix.asyncStatus ∧
      sub'.status = runningFix.status ∧
      sub'.result = runningFix.result ∧
      jmapGet
        (jmapDelete (jmapSet st8.outputToolIdToAgentId "ot1" "ag1") "ot1")
        "ot1" = none) :=
  ⟨⟨by decide, by decide, by decide, by decide, by decide, by decide⟩,
    C8_still_running_no_transition.1 fsIdEmpty st8 "ot1" c8NotReadyText none 7
      "ag1" runningFix (by decide) (by decide) (by decide) (by decide)
      (by decide) (by decide)⟩

/-- C4 counterexample: in the payload
`agents = (b -> result B, a -> null)` the supplied context id `a` IS a key
of the agents map, its null entry carries neither result nor output, so the
claim as stated demands the entry pretty-printed as JSON ("null"); the
extractor instead falls to the first-entry branch and returns "B". -/
theorem C4_counterexample :
    (match JSONParse c4Payload with
      | some p => jsKeys ((jget p "agents").getD .jnull)
      | none => []) = ["b", "a"] ∧
    jsonStringify JVal.jnull = "null" ∧
    extractAgentResult fsIdEmpty c4Payload "a" none = "B" ∧
    extractAgentResult fsIdEmpty c4Payload "a" none ≠ jsonStringify JVal.jnull :=
  ⟨by decide, by decide, by decide, by decide⟩

/-- C4 (amended): Result extraction precedence over a parsed payload with a
per-agent map.  A structured task sub-object's result/output wins over
everything; otherwise, when the context agent id is non-empty and indexes a
truthy entry of the agents map, that entry's result, else output, else its
pretty-printed JSON is returned; when the context id is empty, absent from
the map, or indexes a falsy entry, the first entry by iteration order is
used the same way; only when no task object applies and no agents map
applies does a top-level result/output field win. -/
theorem C4_extraction_precedence :
    ∀ (fs : FSModel) (parsed : JVal) (agentId : String),
      (∀ r, extractResultFromTaskObject fs (jget parsed "task") = some r →
        extractAgentResultParsed fs parsed agentId = some r) ∧
      (extractResultFromTaskObject fs (jget parsed "task") = none →
        ∀ ag, jget parsed "agents" = some ag → truthy ag = true →
          agentId.isEmpty = false →
          ∀ entry, jsIndex ag agentId = some entry → truthy entry = true →
            extractAgentResultParsed fs parsed agentId =
              some (extractFromAgentEntry fs entry)) ∧
      (extractResultFromTaskObject fs (jget parsed "task") = none →
        ∀ ag, jget parsed "agents" = some ag → truthy ag = true →
          (agentId.isEmpty = true ∨ jsIndex ag agentId = none ∨
            (∃ entry, jsIndex ag agentId = some entry ∧ truthy entry = false)) →
          ∀ k0 ks, jsKeys ag = k0 :: ks →
            extractAgentResultParsed fs parsed agentId =
              some (extractFromAgentEntry fs ((jsIndex ag k0).getD .jnull))) ∧
      (extractResultFromTaskObject fs (jget parsed "task") = none →
        (jget parsed "agents" = none ∨
          (∃ ag, jget parsed "agents" = some ag ∧ truthy ag = false)) →
        extractAgentResultParsed fs parsed agentId =
          (match extractResultFromCandidateString fs (jget parsed "result") with
           | some r => some r
           | none => extractResultFromCandidateString fs (jget parsed "output"))) := by
  intro fs parsed agentId
  refine ⟨?_, ?_, ?_, ?_⟩
  · intro r h
    simp [extractAgentResultParsed, h]
  · intro ht ag hag hta hid entry hentry htr
    have hcond :
        (truthy ag && !agentId.isEmpty &&
          (match jsIndex ag agentId with
           | some entry => truthy entry
           | none => false)) = true := by
      rw [hta, hid, hentry]
      simp [htr]
    simp only [extractAgentResultParsed, ht, hag]
    rw [hcond]
    simp [hentry]
  · intro ht ag hag hta hfail k0 ks hkeys
    have hcond :
        (truthy ag && !agentId.isEmpty &&
          (match jsIndex ag agentId with
           | some entry => truthy entry
           | none => false)) = false := by
      rcases hfail with hid | hnone | ⟨entry, hentry, hfalsy⟩
      · rw [hid]; simp
      · rw [hnone]; simp
      · rw [hentry]; simp [hfalsy]
    simp only [extractAgentResultParsed, ht, hag]
    rw [hcond]
    simp [hta, hkeys]
  · intro ht hagents
    rcases hagents with hnone | ⟨ag, hag, hfalsy⟩
    · simp [extractAgentResultParsed, ht, hnone]
    · simp [extractAgentResultParsed, ht, hag, hfalsy]

/-- Closed instances of all four branches of the amended C4 at concrete
payloads. -/
theorem C4_extraction_precedence_witness :
    (extractResultFromTaskObject fsIdEmpty
        (jget (.jobj [("task", .jobj [("result", .jstr "TASK")]),
          ("agents", .jobj [("a", .jobj [("result", .jstr "A")])])]) "task") =
        some "TASK" ∧
      extractAgentResultParsed fsIdEmpty
        (.jobj [("task", .jobj [("result", .jstr "TASK")]),
          ("agents", .jobj [("a", .jobj [("result", .jstr "A")])])]) "a" =
        some "TASK") ∧
    (extractAgentResultParsed fsIdEmpty
        (.jobj [("agents", .jobj [("a", .jobj [("result", .jstr "A")]),
          ("b", .jobj [("result", .jstr "B")])])]) "b" =
        some (extractFromAgentEntry fsIdEmpty (.jobj [("result", .jstr "B")]))) ∧
    (extractAgentResultParsed fsIdEmpty
        (.jobj [("agents", .jobj [("b", .jobj [("result", .jstr "B")]),
          ("a", .jnull)])]) "a" =
        some (extractFromAgentEntry fsIdEmpty
          ((jsIndex (.jobj [("b", .jobj [("result", .jstr "B")]),
            ("a", .jnull)]) "b").getD .jnull))) ∧
    (extractAgentResultParsed fsIdEmpty
        (.jobj [("agents", .jstr ""), ("result", .jstr "TOP")]) "a" =
        (match extractResultFromCandidateString fsIdEmpty
            (jget (.jobj [("agents", .jstr ""), ("result", .jstr "TOP")])
              "result") with
         | some r => some r
         | none => extractResultFromCandidateString fsIdEmpty
             (jget (.jobj [("agents", .jstr ""), ("result", .jstr "TOP")])
               "output"))) :=
  ⟨⟨rfl,
      (C4_extraction_precedence fsIdEmpty
        (.jobj [("task", .jobj [("result", .jstr "TASK")]),
          ("agents", .jobj [("a", .jobj [("result", .jstr "A")])])]) "a").1
        "TASK" rfl⟩,
    (C4_extraction_precedence fsIdEmpty
        (.jobj [("agents", .jobj [("a", .jobj [("result", .jstr "A")]),
          ("b", .jobj [("result", .jstr "B")])])]) "b").2.1
      rfl
      (.jobj [("a", .jobj [("result", .jstr "A")]),
        ("b", .jobj [("result", .jstr "B")])])
      rfl (by decide) (by decide)
      (.jobj [("result", .jstr "B")]) rfl (by decide),
    (C4_extraction_precedence fsIdEmpty
        (.jobj [("agents", .jobj [("b", .jobj [("result", .jstr "B")]),
          ("a", .jnull)])]) "a").2.2.1
      rfl
      (.jobj [("b", .jobj [("result", .jstr "B")]), ("a", .jnull)])
      rfl (by decide)
      (Or.inr (Or.inr ⟨.jnull, rfl, by decide⟩)) "b" ["a"] rfl,
    (C4_extraction_precedence fsIdEmpty
        (.jobj [("agents", .jstr ""), ("result", .jstr "TOP")]) "a").2.2.2
      rfl (Or.inr ⟨.jstr "", rfl, by decide⟩)⟩

end Claudian
